import Mathlib

/-!
Shallow embedding of `src/scrapers/app.py`, the economic-indicator scraper.

Modelling conventions:
* Numeric observation values are modelled as rationals (`ℚ`).  In the Python
  source the provider payloads carry numbers as strings and `float(...)` is
  applied; here the payload records carry the already-parsed rational, and a
  malformed payload (where parsing or any other access would raise) is
  modelled by the `none` / error constructors of the response types, since
  every exception inside an adapter's `try` block is caught and turns into
  the `None` return value.
* Python's `round(x, 1)` is modelled exactly on rationals as
  round-half-to-even at one decimal place (`round1`).
* Network input is a parameter: each adapter takes the (parsed) response it
  would have obtained, with a dedicated constructor for "the request or the
  parse raised".
* The JSON store file is modelled as an association list from indicator key
  to series, mirroring a Python `dict` (insertion order preserved, in-place
  update of an existing key).
* String helpers of the source (`.replace('M','')`, `.zfill(2)`, slicing
  `[:7]`, `str(int(y)-1)`) are re-implemented over the character list of the
  string so that they compute by kernel reduction.
-/

namespace EconScraper

/-- Python `round(x, 1)` half-to-even integer rounding step: round a rational
to the nearest integer, ties to the even integer. -/
def roundHalfEven (q : ℚ) : ℤ :=
  let f : ℤ := ⌊q⌋
  let r : ℚ := q - (f : ℚ)
  if r < 1/2 then f
  else if 1/2 < r then f + 1
  else if f % 2 = 0 then f else f + 1

/-- Python `round(value, 1)`: round to one decimal place, ties to even. -/
def round1 (q : ℚ) : ℚ := ((roundHalfEven (q * 10) : ℤ) : ℚ) / 10

/-- Python `s.replace('M', '')`: drop every `M` character. -/
def removeM (s : String) : String :=
  String.mk (s.data.filter (fun c => !(c == 'M')))

/-- Python `s.zfill(2)`: left-pad with `0` to length 2. -/
def zfill2 (s : String) : String :=
  if s.data.length ≥ 2 then s
  else String.mk (List.replicate (2 - s.data.length) '0' ++ s.data)

/-- Python `s[:7]`. -/
def take7 (s : String) : String := String.mk (s.data.take 7)

/-- Parse a decimal digit. -/
def digitVal (c : Char) : Option ℕ :=
  if c.isDigit then some (c.toNat - '0'.toNat) else none

/-- Accumulating decimal parse of a digit list; `none` on a non-digit. -/
def parseDigitsAux : List Char → ℕ → Option ℕ
  | [], acc => some acc
  | c :: cs, acc =>
    match digitVal c with
    | some d => parseDigitsAux cs (acc * 10 + d)
    | none => none

/-- Parse a non-empty all-digit string. -/
def parseDigits : List Char → Option ℕ
  | [] => none
  | cs => parseDigitsAux cs 0

/-- Python `int(s)` for the strings this program feeds it (an optional sign
followed by digits); `none` models the `ValueError` the source catches. -/
def pyInt (s : String) : Option ℤ :=
  match s.data with
  | '-' :: cs => (parseDigits cs).map (fun n => -(n : ℤ))
  | cs => (parseDigits cs).map (fun n => (n : ℤ))

/-- The normalized observation `dict` returned by a successful fetch:
`{'name', 'value', 'date', 'source', 'unit'}`. -/
structure NormObs where
  name : String
  value : ℚ
  date : String
  source : String
  unit : String
deriving DecidableEq, Repr

/-- One entry of `data['Results']['series'][0]['data']` in a BLS response. -/
structure BLSDataPoint where
  year : String
  period : String
  value : ℚ
deriving DecidableEq, Repr

/-- A parsed BLS response: its `status` field and the data list of the first
series.  A response whose shape would make the source raise (and hence
return `None`) is modelled as the `none` argument of `fetch_bls_data`. -/
structure BLSResponse where
  status : String
  seriesData : List BLSDataPoint
deriving DecidableEq, Repr

/-- The filter of the year-ago scan in `fetch_bls_data`:
`d['year'] == str(int(year)-1) and d['period'] == latest['period']`. -/
def yearAgoPred (y : ℤ) (latest : BLSDataPoint) : BLSDataPoint → Bool :=
  fun d => d.year == toString (y - 1) && d.period == latest.period

/-- The observation `dict` built at the end of `fetch_bls_data`:
`date` is `f"{year}-{month}-01"` with `month = period.replace('M','').zfill(2)`. -/
def mkBLS (nm : String) (v : ℚ) (year period un : String) : NormObs :=
  { name := nm, value := v,
    date := year ++ "-" ++ zfill2 (removeM period) ++ "-01",
    source := "BLS", unit := un }

/-- `fetch_bls_data(series_id, name, unit)` of `app.py` (lines 38-77), with
the network response passed in (`none` = the request, `.json()`, or a field
access raised; the surrounding `except` returns `None`).  `int(year)` is
only evaluated inside the CPI branch, and a zero year-ago value models the
`ZeroDivisionError` path (caught, `None`). -/
def fetch_bls_data (series_id nm un : String) (resp : Option BLSResponse) :
    Option NormObs :=
  match resp with
  | none => none
  | some data =>
    if data.status = "REQUEST_SUCCEEDED" then
      match data.seriesData with
      | [] => none
      | latest :: _ =>
        if series_id = "CUUR0000SA0" then
          match pyInt latest.year with
          | none => none
          | some y =>
            match data.seriesData.filter (yearAgoPred y latest) with
            | [] => some (mkBLS nm (round1 latest.value) latest.year latest.period un)
            | ya :: _ =>
              if ya.value = 0 then none
              else
                some (mkBLS nm
                  (round1 ((latest.value - ya.value) / ya.value * 100))
                  latest.year latest.period un)
        else
          some (mkBLS nm (round1 latest.value) latest.year latest.period un)
    else none

/-- One entry of `data['observations']` in a FRED response. -/
structure FREDObs where
  date : String
  value : ℚ
deriving DecidableEq, Repr

/-- The outcomes a FRED request can have at the points the source inspects:
the call or its parse raised; the parsed JSON has no `observations` field;
or it has one, with the given (possibly empty) list. -/
inductive FREDResponse where
  | netError
  | noObservationsField
  | observations (obs : List FREDObs)
deriving DecidableEq, Repr

/-- `fetch_fred_data(series_id, name, unit)` of `app.py` (lines 79-115).
`api_key` is `os.environ.get('FRED_API_KEY', '')`; an empty key returns
`None` before any request is made.  Otherwise the response decides: every
non-success shape falls through to the final `return None`. -/
def fetch_fred_data (series_id nm un api_key : String) (resp : FREDResponse) :
    Option NormObs :=
  if api_key = "" then none
  else
    match resp with
    | FREDResponse.netError => none
    | FREDResponse.noObservationsField => none
    | FREDResponse.observations [] => none
    | FREDResponse.observations (latest :: _) =>
      some { name := nm, value := round1 latest.value, date := latest.date,
             source := "FRED", unit := un }

/-- A persisted observation record `{month, value, date}`. -/
structure Obs where
  month : String
  value : ℚ
  date : String
deriving DecidableEq, Repr

/-- A persisted indicator entry `{name, unit, source, data, lastUpdate?}`;
`lastUpdate` is only present once an append has happened. -/
structure Series where
  name : String
  unit : String
  source : String
  data : List Obs
  lastUpdate : Option String
deriving DecidableEq, Repr

/-- The store `dict` persisted in `data/indicators.json`, as an association
list keeping the dict's insertion order. -/
abbrev Store := List (String × Series)

/-- Dict lookup `data[key]` / `key in data`. -/
def Store.find : Store → String → Option Series
  | [], _ => none
  | (k', v) :: rest, k => if k' = k then some v else Store.find rest k

/-- Dict assignment `data[key] = v`: replace in place, else append. -/
def Store.set : Store → String → Series → Store
  | [], k, v => [(k, v)]
  | (k', v') :: rest, k, v =>
    if k' = k then (k, v) :: rest else (k', v') :: Store.set rest k v

/-- The list `[d['date'] for d in data[key]['data']]`. -/
def Series.dates (s : Series) : List String := s.data.map Obs.date

/-- The date `d` is already recorded for key `k` in the store. -/
def Store.hasDate (st : Store) (k d : String) : Prop :=
  ∃ s, Store.find st k = some s ∧ d ∈ s.dates

instance (st : Store) (k d : String) : Decidable (Store.hasDate st k d) := by
  unfold Store.hasDate
  exact
    match Store.find st k with
    | some s =>
      if h : d ∈ s.dates then isTrue ⟨s, rfl, h⟩
      else isFalse (fun ⟨s', hs', hd'⟩ => by
        cases hs'
        exact h hd')
    | none => isFalse (fun ⟨s', hs', _⟩ => by cases hs')

/-- The fresh entry created when `key not in data` (lines 138-144), seeded
from the observation's `name`/`unit`/`source` with an empty data list. -/
def initSeries (nd : NormObs) : Series :=
  { name := nd.name, unit := nd.unit, source := nd.source,
    data := [], lastUpdate := none }

/-- The series the loop body works on: the existing entry, or the fresh one
it just created. -/
def foundOrInit (store : Store) (key : String) (nd : NormObs) : Series :=
  match Store.find store key with
  | some s => s
  | none => initSeries nd

/-- The append of lines 149-154: push `{month: date[:7], value, date}` and
stamp `lastUpdate` with the current time. -/
def appendObs (s : Series) (nd : NormObs) (now : String) : Series :=
  { s with
    data := s.data ++ [{ month := take7 nd.date, value := nd.value,
                         date := nd.date }],
    lastUpdate := some now }

/-- The per-key body of the loop in `update_all_indicators` (lines 137-156):
create the entry if absent, skip when the date is already present, otherwise
append the observation.  Returns the updated store and whether
`updated.append(key)` ran. -/
def mergeOne (store : Store) (key : String) (nd : NormObs) (now : String) :
    Store × Bool :=
  if nd.date ∈ (foundOrInit store key nd).dates then
    (Store.set store key (foundOrInit store key nd), false)
  else
    (Store.set store key (appendObs (foundOrInit store key nd) nd now), true)

/-- The registry keys of `indicators_config`, in dict order. -/
def indicatorKeys : List String :=
  ["cpi", "unemployment", "fed_rate", "ism", "consumer_confidence"]

/-- The `for key, config in indicators_config.items()` loop of
`update_all_indicators`, generalized over the key list so it can be proved
about by induction.  `fetch key` is `config['fetcher']()`, whose `None`
result (or a caught per-key exception) skips the key. -/
def updateKeys (fetch : String → Option NormObs) :
    List String → Store → String → Store × List String
  | [], store, _ => (store, [])
  | key :: ks, store, now =>
    match fetch key with
    | none => updateKeys fetch ks store now
    | some nd =>
      let m := mergeOne store key nd now
      let rest := updateKeys fetch ks m.1 now
      (rest.1, (if m.2 then [key] else []) ++ rest.2)

/-- `update_all_indicators()` (lines 117-162), up to the final `save_data`
call: the store it goes on to persist, and the `updated` list it returns.
Persistence is modelled separately (`update_and_persist`). -/
def update_all_indicators (fetch : String → Option NormObs) (store : Store)
    (now : String) : Store × List String :=
  updateKeys fetch indicatorKeys store now

/-- The five `fetcher` closures of `indicators_config` (lines 123-129),
parameterized by the `FRED_API_KEY` value and by the per-series network
responses of each provider. -/
def registryFetch (fredKey : String) (bls : String → Option BLSResponse)
    (fred : String → FREDResponse) : String → Option NormObs :=
  fun key =>
    if key = "cpi" then fetch_bls_data "CUUR0000SA0" "CPI" "%" (bls "CUUR0000SA0")
    else if key = "unemployment" then
      fetch_bls_data "LNS14000000" "UNRATE" "%" (bls "LNS14000000")
    else if key = "fed_rate" then
      fetch_fred_data "DFEDTARU" "FEDRATE" "%" fredKey (fred "DFEDTARU")
    else if key = "ism" then
      fetch_fred_data "NAPM" "ISM" "pt" fredKey (fred "NAPM")
    else if key = "consumer_confidence" then
      fetch_fred_data "UMCSENT" "UMCSENT" "pt" fredKey (fred "UMCSENT")
    else none

/-- `save_data` (lines 32-36) opens `data/indicators.json` itself with mode
`'w'` — truncating the visible file — and then streams `json.dump` into it.
The file contents a concurrent reader can observe during the call are
therefore exactly the prefixes of the new serialization, starting from the
truncated empty file. -/
def save_data_fileStates (content : String) : List String :=
  (List.range (content.data.length + 1)).map (fun n => String.mk (content.data.take n))

/-- Modelled from the spec: `persist` with atomic replace semantics (write to
a staging location, switch in one step) would let a reader observe only the
complete old contents or the complete new contents. -/
def atomicPersistStates (pre post : String) : List String := [pre, post]

/-- Outcome record of the `/api/update` handler `manual_update`
(lines 199-209): `success`, the `updated` list on success, `error` on
failure. -/
structure UpdateResult where
  success : Bool
  updated : Option (List String)
  error : Option String
deriving DecidableEq, Repr

/-- `update_all_indicators` including its final `save_data(data)` call
(line 160): the persist step runs outside the per-key `try`, so its
exception propagates out of the function. -/
def update_and_persist (fetch : String → Option NormObs) (store : Store)
    (now : String) (persist : Store → Except String Unit) :
    Except String (Store × List String) :=
  match persist (update_all_indicators fetch store now).1 with
  | Except.ok _ => Except.ok (update_all_indicators fetch store now)
  | Except.error e => Except.error e

/-- `manual_update()` (lines 199-209): wraps the run in `try`, answering
`{'success': True, 'updated': ...}` or `{'success': False, 'error': e}`. -/
def manual_update (fetch : String → Option NormObs) (store : Store)
    (now : String) (persist : Store → Except String Unit) : UpdateResult :=
  match update_and_persist fetch store now persist with
  | Except.ok r => { success := true, updated := some r.2, error := none }
  | Except.error e => { success := false, updated := none, error := some e }

/-- Every entry of the store has duplicate-free dates. -/
def StoreNoDupDates (st : Store) : Prop :=
  ∀ p ∈ st, (Series.dates p.2).Nodup

/-- The Boolean "this fetch outcome would contribute a new date to this
store", used to characterize the changed-set. -/
def newObsFlag (st : Store) (fetch : String → Option NormObs) (k : String) :
    Bool :=
  match fetch k with
  | some nd => decide (¬ Store.hasDate st k nd.date)
  | none => false

/-! ### Concrete test fixtures (used by the witness theorems) -/

/-- A persisted September observation. -/
def obsSep : Obs := { month := "2024-09", value := 3, date := "2024-09-01" }

/-- A one-observation CPI series. -/
def seriesCPI : Series :=
  { name := "CPI", unit := "%", source := "BLS", data := [obsSep],
    lastUpdate := some "t0" }

/-- A store holding only the CPI series. -/
def storeCPI : Store := [("cpi", seriesCPI)]

/-- A normalized observation repeating `obsSep`'s date. -/
def ndSep : NormObs :=
  { name := "CPI", value := 3, date := "2024-09-01", source := "BLS",
    unit := "%" }

/-- The latest CPI index data point of the spec's worked example. -/
def dpLatest : BLSDataPoint := { year := "2024", period := "M09", value := 118 }

/-- The year-ago CPI index data point of the spec's worked example. -/
def dpYearAgo : BLSDataPoint := { year := "2023", period := "M09", value := 110 }

/-- A successful BLS response containing both points. -/
def blsRespYoY : BLSResponse :=
  { status := "REQUEST_SUCCEEDED", seriesData := [dpLatest, dpYearAgo] }

/-- A single unemployment-rate data point. -/
def dpUnrate : BLSDataPoint := { year := "2024", period := "M09", value := 42 }

/-- A successful BLS response for the unemployment series. -/
def blsRespUnrate : BLSResponse :=
  { status := "REQUEST_SUCCEEDED", seriesData := [dpUnrate] }

/-- A FRED observation dated mid-month. -/
def fredObsMay : FREDObs := { date := "2024-05-15", value := 53/10 }

/-- A persisted observation for the first of the same month. -/
def obsMay01 : Obs :=
  { month := "2024-05", value := 53/10, date := "2024-05-01" }

/-- A federal-funds-rate series holding `obsMay01`. -/
def seriesFed : Series :=
  { name := "FEDRATE", unit := "%", source := "FRED", data := [obsMay01],
    lastUpdate := some "t0" }

/-- A store holding only the federal-funds-rate series. -/
def storeFed : Store := [("fed_rate", seriesFed)]

/-- The normalized observation `fetch_fred_data` produces from
`fredObsMay`. -/
def ndMay : NormObs :=
  { name := "FEDRATE", value := round1 (53/10), date := "2024-05-15",
    source := "FRED", unit := "%" }

/-! ### Store lemmas -/

theorem find_set_self : ∀ (st : Store) (k : String) (v : Series),
    Store.find (Store.set st k v) k = some v
  | [], k, v => by simp [Store.set, Store.find]
  | (k', v') :: rest, k, v => by
    by_cases h : k' = k
    · simp [Store.set, Store.find, h]
    · simp [Store.set, Store.find, h, find_set_self rest k v]

theorem find_set_ne : ∀ (st : Store) (k key : String) (v : Series),
    k ≠ key → Store.find (Store.set st key v) k = Store.find st k
  | [], k, key, v, h => by
    simp [Store.set, Store.find, Ne.symm h]
  | (k', v') :: rest, k, key, v, h => by
    by_cases hk : k' = key
    · subst hk
      simp [Store.set, Store.find, Ne.symm h]
    · simp [Store.set, Store.find, hk, find_set_ne rest k key v h]

theorem set_find_eq : ∀ (st : Store) (k : String) (v : Series),
    Store.find st k = some v → Store.set st k v = st
  | [], k, v, h => by simp [Store.find] at h
  | (k', v') :: rest, k, v, h => by
    by_cases hk : k' = k
    · subst hk
      simp [Store.find] at h
      simp [Store.set, h]
    · simp [Store.find, hk] at h
      simp [Store.set, hk, set_find_eq rest k v h]

theorem mem_set : ∀ (st : Store) (k : String) (v : Series) (p : String × Series),
    p ∈ Store.set st k v → p ∈ st ∨ p = (k, v)
  | [], k, v, p, h => by
    simp [Store.set] at h
    exact Or.inr (by simp [h])
  | (k', v') :: rest, k, v, p, h => by
    by_cases hk : k' = k
    · simp only [Store.set, if_pos hk, List.mem_cons] at h
      rcases h with h | h
      · exact Or.inr h
      · exact Or.inl (List.mem_cons_of_mem _ h)
    · simp only [Store.set, if_neg hk, List.mem_cons] at h
      rcases h with h | h
      · exact Or.inl (by simp [h])
      · rcases mem_set rest k v p h with h' | h'
        · exact Or.inl (List.mem_cons_of_mem _ h')
        · exact Or.inr h'

theorem find_mem : ∀ (st : Store) (k : String) (s : Series),
    Store.find st k = some s → (k, s) ∈ st
  | [], k, s, h => by simp [Store.find] at h
  | (k', v') :: rest, k, s, h => by
    by_cases hk : k' = k
    · subst hk
      simp [Store.find] at h
      simp [h]
    · simp [Store.find, hk] at h
      exact List.mem_cons_of_mem _ (find_mem rest k s h)

theorem hasDate_iff_some (st : Store) (k d : String) (s : Series)
    (hf : Store.find st k = some s) :
    Store.hasDate st k d ↔ d ∈ s.dates := by
  constructor
  · rintro ⟨s', hs', hd'⟩
    rw [hf] at hs'
    cases hs'
    exact hd'
  · intro hd
    exact ⟨s, hf, hd⟩

theorem not_hasDate_none (st : Store) (k d : String)
    (hf : Store.find st k = none) : ¬ Store.hasDate st k d := by
  rintro ⟨s', hs', _⟩
  rw [hf] at hs'
  cases hs'

/-! ### mergeOne lemmas -/

theorem dates_appendObs (s : Series) (nd : NormObs) (now : String) :
    (appendObs s nd now).dates = s.dates ++ [nd.date] := by
  simp [appendObs, Series.dates]

theorem mergeOne_find_ne (st : Store) (key k : String) (nd : NormObs)
    (now : String) (h : k ≠ key) :
    Store.find (mergeOne st key nd now).1 k = Store.find st k := by
  unfold mergeOne
  split
  · exact find_set_ne st k key _ h
  · exact find_set_ne st k key _ h

theorem mergeOne_of_hasDate (st : Store) (key : String) (nd : NormObs)
    (now : String) (h : Store.hasDate st key nd.date) :
    mergeOne st key nd now = (st, false) := by
  rcases h with ⟨s, hf, hd⟩
  have hfo : foundOrInit st key nd = s := by simp [foundOrInit, hf]
  unfold mergeOne
  rw [hfo, if_pos hd, set_find_eq st key s hf]

theorem mergeOne_hasDate_self (st : Store) (key : String) (nd : NormObs)
    (now : String) :
    Store.hasDate (mergeOne st key nd now).1 key nd.date := by
  unfold mergeOne
  split
  · rename_i hd
    exact ⟨_, find_set_self st key _, hd⟩
  · refine ⟨_, find_set_self st key _, ?_⟩
    rw [dates_appendObs]
    simp

theorem mergeOne_hasDate_mono (st : Store) (key k : String) (nd : NormObs)
    (now d : String) (h : Store.hasDate st k d) :
    Store.hasDate (mergeOne st key nd now).1 k d := by
  by_cases hk : k = key
  · subst hk
    rcases h with ⟨s, hf, hd⟩
    have hfo : foundOrInit st k nd = s := by simp [foundOrInit, hf]
    unfold mergeOne
    rw [hfo]
    split
    · exact ⟨s, find_set_self st k s, hd⟩
    · refine ⟨_, find_set_self st k _, ?_⟩
      rw [dates_appendObs]
      exact List.mem_append_left _ hd
  · rw [Store.hasDate]
    rw [mergeOne_find_ne st key k nd now hk]
    exact h

theorem mergeOne_changed (st : Store) (key : String) (nd : NormObs)
    (now : String) :
    (mergeOne st key nd now).2 = decide (¬ Store.hasDate st key nd.date) := by
  cases hf : Store.find st key with
  | some s =>
    have hfo : foundOrInit st key nd = s := by simp [foundOrInit, hf]
    have hiff := hasDate_iff_some st key nd.date s hf
    unfold mergeOne
    rw [hfo]
    by_cases hd : nd.date ∈ s.dates
    · rw [if_pos hd]
      simp [hiff, hd]
    · rw [if_neg hd]
      simp [hiff, hd]
  | none =>
    have hfo : foundOrInit st key nd = initSeries nd := by
      simp [foundOrInit, hf]
    have hnot := not_hasDate_none st key nd.date hf
    unfold mergeOne
    rw [hfo, if_neg (by simp [initSeries, Series.dates])]
    simp [hnot]

theorem mergeOne_preserves_series (st : Store) (key k : String) (nd : NormObs)
    (now : String) (s : Series) (hf : Store.find st k = some s) :
    ∃ s', Store.find (mergeOne st key nd now).1 k = some s' ∧
      s.data <+: s'.data ∧ s'.name = s.name ∧ s'.unit = s.unit ∧
      s'.source = s.source := by
  by_cases hk : k = key
  · subst hk
    have hfo : foundOrInit st k nd = s := by simp [foundOrInit, hf]
    unfold mergeOne
    rw [hfo]
    split
    · exact ⟨s, find_set_self st k s, List.prefix_refl _, rfl, rfl, rfl⟩
    · exact ⟨_, find_set_self st k _, List.prefix_append _ _, rfl, rfl, rfl⟩
  · exact ⟨s, by rw [mergeOne_find_ne st key k nd now hk]; exact hf,
      List.prefix_refl _, rfl, rfl, rfl⟩

theorem mergeOne_nodup (st : Store) (key : String) (nd : NormObs)
    (now : String) (h : StoreNoDupDates st) :
    StoreNoDupDates (mergeOne st key nd now).1 := by
  intro p hp
  unfold mergeOne at hp
  split at hp
  · rename_i hd
    rcases mem_set st key _ p hp with h' | h'
    · exact h p h'
    · subst h'
      cases hf : Store.find st key with
      | some s =>
        have hfo : foundOrInit st key nd = s := by simp [foundOrInit, hf]
        simp only [hfo]
        exact h (key, s) (find_mem st key s hf)
      | none =>
        have hfo : foundOrInit st key nd = initSeries nd := by
          simp [foundOrInit, hf]
        simp [hfo, initSeries, Series.dates]
  · rename_i hd
    rcases mem_set st key _ p hp with h' | h'
    · exact h p h'
    · subst h'
      show (Series.dates (appendObs (foundOrInit st key nd) nd now)).Nodup
      rw [dates_appendObs, List.nodup_append]
      refine ⟨?_, List.nodup_singleton _, ?_⟩
      · cases hf : Store.find st key with
        | some s =>
          have hfo : foundOrInit st key nd = s := by simp [foundOrInit, hf]
          rw [hfo]
          exact h (key, s) (find_mem st key s hf)
        | none =>
          have hfo : foundOrInit st key nd = initSeries nd := by
            simp [foundOrInit, hf]
          simp [hfo, initSeries, Series.dates]
      · intro a ha hb
        simp only [List.mem_singleton] at hb
        subst hb
        exact hd ha

/-! ### updateKeys lemmas -/

theorem updateKeys_find_of_none (fetch : String → Option NormObs)
    (k : String) (hk : fetch k = none) :
    ∀ (keys : List String) (st : Store) (now : String),
      Store.find (updateKeys fetch keys st now).1 k = Store.find st k := by
  intro keys
  induction keys with
  | nil => intro st now; rfl
  | cons key ks ih =>
    intro st now
    cases hf : fetch key with
    | none =>
      simp only [updateKeys, hf]
      exact ih st now
    | some nd =>
      have hne : k ≠ key := by
        intro h
        rw [h, hf] at hk
        cases hk
      simp only [updateKeys, hf]
      rw [ih _ now, mergeOne_find_ne st key k nd now hne]

theorem updateKeys_hasDate_mono (fetch : String → Option NormObs)
    (k d : String) :
    ∀ (keys : List String) (st : Store) (now : String),
      Store.hasDate st k d →
      Store.hasDate (updateKeys fetch keys st now).1 k d := by
  intro keys
  induction keys with
  | nil => intro st now h; exact h
  | cons key ks ih =>
    intro st now h
    cases hf : fetch key with
    | none =>
      simp only [updateKeys, hf]
      exact ih st now h
    | some nd =>
      simp only [updateKeys, hf]
      exact ih _ now (mergeOne_hasDate_mono st key k nd now d h)

theorem updateKeys_establishes (fetch : String → Option NormObs)
    (k : String) (nd : NormObs) (hk : fetch k = some nd) :
    ∀ (keys : List String) (st : Store) (now : String), k ∈ keys →
      Store.hasDate (updateKeys fetch keys st now).1 k nd.date := by
  intro keys
  induction keys with
  | nil => intro st now h; cases h
  | cons key ks ih =>
    intro st now hmem
    rcases List.mem_cons.mp hmem with heq | hmem'
    · subst heq
      simp only [updateKeys, hk]
      exact updateKeys_hasDate_mono fetch k nd.date ks _ now
        (mergeOne_hasDate_self st k nd now)
    · cases hf : fetch key with
      | none =>
        simp only [updateKeys, hf]
        exact ih st now hmem'
      | some nd' =>
        simp only [updateKeys, hf]
        exact ih _ now hmem'

theorem updateKeys_noop (fetch : String → Option NormObs) :
    ∀ (keys : List String) (st : Store) (now : String),
      (∀ k ∈ keys, ∀ nd, fetch k = some nd → Store.hasDate st k nd.date) →
      updateKeys fetch keys st now = (st, []) := by
  intro keys
  induction keys with
  | nil => intro st now _; rfl
  | cons key ks ih =>
    intro st now h
    cases hf : fetch key with
    | none =>
      simp only [updateKeys, hf]
      exact ih st now (fun k hk nd hnd => h k (List.mem_cons_of_mem _ hk) nd hnd)
    | some nd =>
      have hdate := h key (List.mem_cons_self key ks) nd hf
      have hm := mergeOne_of_hasDate st key nd now hdate
      simp only [updateKeys, hf, hm]
      rw [ih st now (fun k hk nd' hnd' => h k (List.mem_cons_of_mem _ hk) nd' hnd')]
      simp

theorem updateKeys_preserves_series (fetch : String → Option NormObs)
    (k : String) :
    ∀ (keys : List String) (st : Store) (now : String) (s : Series),
      Store.find st k = some s →
      ∃ s', Store.find (updateKeys fetch keys st now).1 k = some s' ∧
        s.data <+: s'.data ∧ s'.name = s.name ∧ s'.unit = s.unit ∧
        s'.source = s.source := by
  intro keys
  induction keys with
  | nil =>
    intro st now s hf
    exact ⟨s, hf, List.prefix_refl _, rfl, rfl, rfl⟩
  | cons key ks ih =>
    intro st now s hf
    cases hfk : fetch key with
    | none =>
      simp only [updateKeys, hfk]
      exact ih st now s hf
    | some nd =>
      simp only [updateKeys, hfk]
      rcases mergeOne_preserves_series st key k nd now s hf with
        ⟨s₁, hf₁, hp₁, hn₁, hu₁, hs₁⟩
      rcases ih _ now s₁ hf₁ with ⟨s₂, hf₂, hp₂, hn₂, hu₂, hs₂⟩
      exact ⟨s₂, hf₂, hp₁.trans hp₂, hn₂.trans hn₁, hu₂.trans hu₁,
        hs₂.trans hs₁⟩

theorem updateKeys_changed (fetch : String → Option NormObs) (store : Store) :
    ∀ (keys : List String) (st : Store) (now : String), keys.Nodup →
      (∀ k ∈ keys, Store.find st k = Store.find store k) →
      (updateKeys fetch keys st now).2 = keys.filter (newObsFlag store fetch) := by
  intro keys
  induction keys with
  | nil => intro st now _ _; rfl
  | cons key ks ih =>
    intro st now hnodup hsame
    have hkey : Store.find st key = Store.find store key :=
      hsame key (List.mem_cons_self key ks)
    rcases List.nodup_cons.mp hnodup with ⟨hnotmem, hnodup'⟩
    cases hf : fetch key with
    | none =>
      simp only [updateKeys, hf]
      rw [List.filter_cons]
      have hflag : newObsFlag store fetch key = false := by
        simp [newObsFlag, hf]
      rw [if_neg (by simp [hflag])]
      exact ih st now hnodup' (fun k hk => hsame k (List.mem_cons_of_mem _ hk))
    | some nd =>
      have hch : (mergeOne st key nd now).2 =
          decide (¬ Store.hasDate store key nd.date) := by
        rw [mergeOne_changed]
        simp [Store.hasDate, hkey]
      have hflag : newObsFlag store fetch key =
          decide (¬ Store.hasDate store key nd.date) := by
        simp [newObsFlag, hf]
      have hrest : (updateKeys fetch ks (mergeOne st key nd now).1 now).2 =
          ks.filter (newObsFlag store fetch) := by
        refine ih _ now hnodup' ?_
        intro k hk
        have hne : k ≠ key := fun h => hnotmem (h ▸ hk)
        rw [mergeOne_find_ne st key k nd now hne]
        exact hsame k (List.mem_cons_of_mem _ hk)
      simp only [updateKeys, hf, hrest, List.filter_cons, hflag, hch]
      by_cases hd : Store.hasDate store key nd.date
      · simp [hd]
      · simp [hd]

theorem updateKeys_nodup (fetch : String → Option NormObs) :
    ∀ (keys : List String) (st : Store) (now : String),
      StoreNoDupDates st → StoreNoDupDates (updateKeys fetch keys st now).1 := by
  intro keys
  induction keys with
  | nil => intro st now h; exact h
  | cons key ks ih =>
    intro st now h
    cases hf : fetch key with
    | none =>
      simp only [updateKeys, hf]
      exact ih st now h
    | some nd =>
      simp only [updateKeys, hf]
      exact ih _ now (mergeOne_nodup st key nd now h)

/-! ### Claim theorems -/

/-- C1: merging is duplicate-free and idempotent on dates.  If an
observation's `date` already occurs in a key's series, the merge leaves the
store unchanged and reports no change; and running the whole update a second
time over identical upstream responses returns an empty changed-set and the
structurally identical store (so `lastUpdate` included, it being only
written on an append). -/
theorem C1_merge_idempotent :
    (∀ (store : Store) (k : String) (s : Series) (nd : NormObs) (now : String),
      Store.find store k = some s → nd.date ∈ s.dates →
      mergeOne store k nd now = (store, false)) ∧
    (∀ (fetch : String → Option NormObs) (store : Store) (now₁ now₂ : String),
      update_all_indicators fetch (update_all_indicators fetch store now₁).1 now₂
        = ((update_all_indicators fetch store now₁).1, [])) := by
  constructor
  · intro store k s nd now hf hd
    exact mergeOne_of_hasDate store k nd now ⟨s, hf, hd⟩
  · intro fetch store now₁ now₂
    unfold update_all_indicators
    apply updateKeys_noop
    intro k hk nd hnd
    exact updateKeys_establishes fetch k nd hnd indicatorKeys store now₁ hk

/-- Witness for C1 at a concrete store and observation whose date is already
recorded. -/
theorem C1_witness : mergeOne storeCPI "cpi" ndSep "t1" = (storeCPI, false) :=
  C1_merge_idempotent.1 storeCPI "cpi" seriesCPI ndSep "t1" rfl (by decide)

/-- C2: merging is append-only.  For every series present in the store
before a run, after the run its observation list before is a prefix of the
one after, and `name`, `unit`, `source` are unchanged. -/
theorem C2_append_only (fetch : String → Option NormObs) (store : Store)
    (now k : String) (s : Series) (hf : Store.find store k = some s) :
    ∃ s', Store.find (update_all_indicators fetch store now).1 k = some s' ∧
      s.data <+: s'.data ∧ s'.name = s.name ∧ s'.unit = s.unit ∧
      s'.source = s.source :=
  updateKeys_preserves_series fetch k indicatorKeys store now s hf

/-- Witness for C2 at a concrete one-entry store with no successful fetch. -/
theorem C2_witness :
    ∃ s', Store.find
        (update_all_indicators (fun _ => none) storeCPI "t").1 "cpi"
        = some s' ∧
      seriesCPI.data <+: s'.data ∧
      s'.name = "CPI" ∧ s'.unit = "%" ∧ s'.source = "BLS" :=
  C2_append_only (fun _ => none) storeCPI "t" "cpi" seriesCPI rfl

/-- C3: the claim says `save_data` is an atomic replace; the code opens the
destination file itself with mode `'w'` (truncating it) and streams the JSON
into it, so a concurrent reader can observe a state — here the strict prefix
`"NE"` of the new contents `"NEW"` — that is neither the pre-run contents
`"OLD"` nor the post-run contents. -/
theorem C3_persist_not_atomic :
    "NE" ∈ save_data_fileStates "NEW" ∧
    "NE" ∉ atomicPersistStates "OLD" "NEW" := by
  decide

/-- C4: derived-value correctness of the CPI branch of `fetch_bls_data`.
With a successful response whose first data point is `latest`, if the
payload contains a data point for the same period one year earlier (and its
value is nonzero, so the division is defined), the returned value is
`round1 ((latest - yearAgo) / yearAgo * 100)`; with no year-ago match the
raw index value is returned, rounded to one decimal place. -/
theorem C4_derived_value (nm un : String) (resp : BLSResponse)
    (latest : BLSDataPoint) (rest : List BLSDataPoint) (y : ℤ)
    (hst : resp.status = "REQUEST_SUCCEEDED")
    (hdata : resp.seriesData = latest :: rest)
    (hy : pyInt latest.year = some y) :
    (∀ ya tail, resp.seriesData.filter (yearAgoPred y latest) = ya :: tail →
      ya.value ≠ 0 →
      fetch_bls_data "CUUR0000SA0" nm un (some resp)
        = some (mkBLS nm (round1 ((latest.value - ya.value) / ya.value * 100))
            latest.year latest.period un)) ∧
    (resp.seriesData.filter (yearAgoPred y latest) = [] →
      fetch_bls_data "CUUR0000SA0" nm un (some resp)
        = some (mkBLS nm (round1 latest.value) latest.year latest.period un)) := by
  constructor
  · intro ya tail hfilter hne
    simp [fetch_bls_data, hst, hdata, hy, hdata ▸ hfilter, hne]
  · intro hfilter
    simp [fetch_bls_data, hst, hdata, hy, hdata ▸ hfilter]

/-- Witness for C4: the spec's own example, current value 118 and year-ago
value 110 for the matching period, with the resulting value evaluating to
7.3. -/
theorem C4_witness :
    fetch_bls_data "CUUR0000SA0" "CPI" "%" (some blsRespYoY)
      = some (mkBLS "CPI"
          (round1 ((118 - 110) / 110 * 100)) "2024" "M09" "%") ∧
    round1 ((118 - 110) / 110 * 100) = 73 / 10 := by
  constructor
  · exact (C4_derived_value "CPI" "%" blsRespYoY dpLatest [dpYearAgo] 2024
      rfl rfl (by decide)).1 dpYearAgo [] rfl (by simp [dpYearAgo])
  · norm_num [round1, roundHalfEven]

/-- C5: credential gating.  With the `FRED_API_KEY` environment value empty,
`fetch_fred_data` returns `None` for every series identifier and every
possible network outcome (the request is never attempted), and each
FRED-backed indicator's entry in the store is left untouched by the run. -/
theorem C5_credential_gating (bls : String → Option BLSResponse)
    (fred : String → FREDResponse) (store : Store) (now : String) :
    (∀ sid nm un resp, fetch_fred_data sid nm un "" resp = none) ∧
    (∀ k, k = "fed_rate" ∨ k = "ism" ∨ k = "consumer_confidence" →
      Store.find (update_all_indicators (registryFetch "" bls fred) store now).1 k
        = Store.find store k) := by
  constructor
  · intro sid nm un resp
    simp [fetch_fred_data]
  · intro k hk
    have hnone : registryFetch "" bls fred k = none := by
      rcases hk with h | h | h <;> subst h <;> simp [registryFetch, fetch_fred_data]
    exact updateKeys_find_of_none _ k hnone indicatorKeys store now

/-- Witness for C5 at a concrete network and store. -/
theorem C5_witness :
    fetch_fred_data "DFEDTARU" "FEDRATE" "%" ""
      (FREDResponse.observations [{ date := "2024-05-15", value := 5 }]) = none ∧
    Store.find (update_all_indicators
        (registryFetch "" (fun _ => none) (fun _ => FREDResponse.netError))
        [] "t").1 "fed_rate"
      = Store.find [] "fed_rate" :=
  ⟨(C5_credential_gating (fun _ => none) (fun _ => FREDResponse.netError)
      [] "t").1 "DFEDTARU" "FEDRATE" "%" _,
   (C5_credential_gating (fun _ => none) (fun _ => FREDResponse.netError)
      [] "t").2 "fed_rate" (Or.inl rfl)⟩

/-- C6: partial-failure isolation.  The orchestrator loop is a total
function — a failed or unavailable fetch (the `None` outcome, which also
models a caught per-key exception) never aborts the run — and the returned
changed-set is exactly the registry keys, in registry order, whose fetch
succeeded with a date not already present in the pre-run store. -/
theorem C6_partial_failure_isolation (fetch : String → Option NormObs)
    (store : Store) (now : String) :
    (update_all_indicators fetch store now).2
      = indicatorKeys.filter (newObsFlag store fetch) :=
  updateKeys_changed fetch store indicatorKeys store now (by decide)
    (fun _ _ => rfl)

/-- C7: persistence failure is the sole surfaced error.  If the final store
write fails, the error propagates out of the orchestrator and the on-demand
trigger reports `success = false` with that error; when the write succeeds
the trigger reports success regardless of how many adapters failed, so no
adapter-level error ever surfaces. -/
theorem C7_persistence_error_surfaced (fetch : String → Option NormObs)
    (store : Store) (now : String) (persist : Store → Except String Unit) :
    (∀ e, persist (update_all_indicators fetch store now).1 = Except.error e →
      update_and_persist fetch store now persist = Except.error e ∧
      manual_update fetch store now persist
        = { success := false, updated := none, error := some e }) ∧
    (∀ u, persist (update_all_indicators fetch store now).1 = Except.ok u →
      manual_update fetch store now persist
        = { success := true,
            updated := some (update_all_indicators fetch store now).2,
            error := none }) := by
  constructor
  · intro e he
    have h1 : update_and_persist fetch store now persist = Except.error e := by
      simp [update_and_persist, he]
    exact ⟨h1, by simp [manual_update, h1]⟩
  · intro u hu
    have h1 : update_and_persist fetch store now persist
        = Except.ok (update_all_indicators fetch store now) := by
      simp [update_and_persist, hu]
    simp [manual_update, h1]

/-- Witness for C7: a failing and a succeeding persist at concrete inputs
(all adapters unavailable). -/
theorem C7_witness :
    update_and_persist (fun _ => none) [] "t"
        (fun _ => Except.error "disk full") = Except.error "disk full" ∧
    manual_update (fun _ => none) [] "t" (fun _ => Except.error "disk full")
      = { success := false, updated := none, error := some "disk full" } ∧
    manual_update (fun _ => none) [] "t" (fun _ => Except.ok ())
      = { success := true, updated := some [], error := none } := by
  refine ⟨?_, ?_, ?_⟩
  · exact ((C7_persistence_error_surfaced (fun _ => none) [] "t"
      (fun _ => Except.error "disk full")).1 "disk full" rfl).1
  · exact ((C7_persistence_error_surfaced (fun _ => none) [] "t"
      (fun _ => Except.error "disk full")).1 "disk full" rfl).2
  · exact (C7_persistence_error_surfaced (fun _ => none) [] "t"
      (fun _ => Except.ok ())).2 () rfl

/-- C8: series uniqueness is on the full `date` string only.  The merge
keeps every series free of duplicate `date`s, but the FRED adapter passes
the provider's date through unmodified, and merging an observation whose
year-month already occurs under a different day-of-month appends a second
record with an equal `month` field. -/
theorem C8_month_not_unique :
    (∀ (fetch : String → Option NormObs) (store : Store) (now : String),
      StoreNoDupDates store →
      StoreNoDupDates (update_all_indicators fetch store now).1) ∧
    (∃ o, fetch_fred_data "DFEDTARU" "FEDRATE" "%" "k"
        (FREDResponse.observations [fredObsMay]) = some o ∧
      o.date = "2024-05-15" ∧
      ∃ s, Store.find (mergeOne storeFed "fed_rate" o "t1").1 "fed_rate"
          = some s ∧
        s.data.map Obs.month = ["2024-05", "2024-05"] ∧
        (s.data.map Obs.date).Nodup) := by
  constructor
  · intro fetch store now h
    exact updateKeys_nodup fetch indicatorKeys store now h
  · exact ⟨ndMay, rfl, rfl, appendObs seriesFed ndMay "t1", rfl, by decide,
      by decide⟩

/-- Witness for C8's universally quantified no-duplicate-dates part at a
concrete run. -/
theorem C8_witness :
    StoreNoDupDates (update_all_indicators (fun _ => none) [] "t").1 :=
  C8_month_not_unique.1 (fun _ => none) [] "t"
    (fun p hp => absurd hp (List.not_mem_nil p))

/-- C9: the FRED adapter's outcomes are indistinguishable at its interface:
missing credential, network/timeout error, missing `observations` field, and
an empty observation list all return the identical value `None`. -/
theorem C9_outcomes_indistinguishable (sid nm un key : String)
    (resp : FREDResponse) :
    fetch_fred_data sid nm un "" resp = none ∧
    fetch_fred_data sid nm un key FREDResponse.netError = none ∧
    fetch_fred_data sid nm un key FREDResponse.noObservationsField = none ∧
    fetch_fred_data sid nm un key (FREDResponse.observations []) = none := by
  refine ⟨by simp [fetch_fred_data], ?_, ?_, ?_⟩ <;>
    · unfold fetch_fred_data
      split <;> rfl

/-- C10: the inflation-rate transform is selected by the hardcoded series
identifier `CUUR0000SA0` alone: any other identifier returns the latest
reported value untransformed (for every display name, unit, and payload),
while `CUUR0000SA0` with a year-ago match gets the year-over-year
conversion. -/
theorem C10_hardcoded_transform_selector (sid nm un : String)
    (resp : BLSResponse) (latest : BLSDataPoint) (rest : List BLSDataPoint)
    (hst : resp.status = "REQUEST_SUCCEEDED")
    (hdata : resp.seriesData = latest :: rest) :
    (sid ≠ "CUUR0000SA0" →
      fetch_bls_data sid nm un (some resp)
        = some (mkBLS nm (round1 latest.value) latest.year latest.period un)) ∧
    (∀ y ya tail, sid = "CUUR0000SA0" → pyInt latest.year = some y →
      resp.seriesData.filter (yearAgoPred y latest) = ya :: tail →
      ya.value ≠ 0 →
      fetch_bls_data sid nm un (some resp)
        = some (mkBLS nm (round1 ((latest.value - ya.value) / ya.value * 100))
            latest.year latest.period un)) := by
  constructor
  · intro hsne
    simp [fetch_bls_data, hst, hdata, hsne]
  · intro y ya tail hsid hy hfilter hne
    subst hsid
    simp [fetch_bls_data, hst, hdata, hy, hdata ▸ hfilter, hne]

/-- Witness for C10: the unemployment series identifier is returned raw,
and the CPI identifier gets the conversion, on concrete payloads. -/
theorem C10_witness :
    fetch_bls_data "LNS14000000" "UNRATE" "%" (some blsRespUnrate)
      = some (mkBLS "UNRATE" (round1 42) "2024" "M09" "%") ∧
    fetch_bls_data "CUUR0000SA0" "CPI" "pt" (some blsRespYoY)
      = some (mkBLS "CPI" (round1 ((118 - 110) / 110 * 100)) "2024" "M09" "pt") := by
  constructor
  · exact (C10_hardcoded_transform_selector "LNS14000000" "UNRATE" "%"
      blsRespUnrate dpUnrate [] rfl rfl).1 (by decide)
  · exact (C10_hardcoded_transform_selector "CUUR0000SA0" "CPI" "pt"
      blsRespYoY dpLatest [dpYearAgo] rfl rfl).2 2024 dpYearAgo [] rfl
      (by decide) rfl (by simp [dpYearAgo])

end EconScraper
